import Mathlib

/-!
Shallow embedding of `FHEVMContract.sol` (the unified FHEVM demo plus
Higher/Lower card game contract).

Modelling conventions:
* An encrypted value (`euint32` / `ebool`) is modelled as an `Enc`
  record carrying its plaintext semantics (`val`, reduced modulo `2^32`
  for `euint32`) together with the access-control state of the handle
  currently stored in a slot: `aclThis` records an `FHE.allowThis`
  grant (the engine itself), `aclUsers` the principals granted via
  `FHE.allow`.  Freshly produced handles (arithmetic results,
  `FHE.asEuint32`, `FHE.fromExternal`) carry no grants.
* `FHE.fromExternal(handle, proof)` is modelled by its verified
  plaintext: the proof verifier is an external collaborator, so an
  operation taking an external encrypted input takes the committed
  plaintext as a parameter.
* `keccak256` outputs used for card draws and game secrets are
  environment-supplied entropy; each drawing operation takes the hash
  output as an explicit `entropy` (resp. `secretSeed`) parameter.
* `block.timestamp` is passed explicitly where the contract reads it.
* Solidity `mapping`s become total functions from addresses with the
  zero-initialised default; `require` failures become `Except.error`
  carrying the revert string.
-/

namespace FHEVM

abbrev Address := Nat

/-- The `euint32` modulus, `2^32`. -/
def M : Nat := 4294967296

/-- An encrypted handle as stored in a ledger slot: plaintext semantics
plus the access-control grants attached to the slot's current handle. -/
structure Enc (α : Type) where
  val : α
  aclThis : Bool
  aclUsers : List Address
deriving DecidableEq, Repr

/-- `FHE.add` on `euint32`: wrapping 32-bit addition, fresh handle. -/
def fheAdd (a b : Enc Nat) : Enc Nat :=
  ⟨(a.val + b.val) % M, false, []⟩

/-- `FHE.sub` on `euint32`: wrapping 32-bit subtraction, fresh handle. -/
def fheSub (a b : Enc Nat) : Enc Nat :=
  ⟨(M + a.val % M - b.val % M) % M, false, []⟩

/-- `FHE.mul` on `euint32`: wrapping 32-bit multiplication, fresh handle. -/
def fheMul (a b : Enc Nat) : Enc Nat :=
  ⟨(a.val * b.val) % M, false, []⟩

/-- `FHE.asEuint32`: encrypt a plaintext literal. -/
def asEuint32 (n : Nat) : Enc Nat := ⟨n % M, false, []⟩

/-- `FHE.asEbool`: encrypt a plaintext boolean. -/
def asEbool (b : Bool) : Enc Bool := ⟨b, false, []⟩

/-- `FHE.fromExternal`: the proof-verified external input, by its
committed plaintext. -/
def fromExternal (v : Nat) : Enc Nat := ⟨v % M, false, []⟩

/-- `FHE.allowThis`: grant the engine itself decryption on the handle. -/
def allowThis (h : Enc α) : Enc α := { h with aclThis := true }

/-- `FHE.allow`: grant a principal decryption on the handle. -/
def allow (h : Enc α) (p : Address) : Enc α :=
  { h with aclUsers := p :: h.aclUsers }

/-- The current slot handle has both required grants: the engine itself
and the given owning principal. -/
def bothGrants (h : Enc α) (p : Address) : Prop :=
  h.aclThis = true ∧ p ∈ h.aclUsers

instance (h : Enc α) (p : Address) : Decidable (bothGrants h p) := by
  unfold bothGrants; infer_instance

/-- Solidity `uint8` cast. -/
def toUInt8 (n : Nat) : Nat := n % 256

/-- A card draw: `uint8((uint256(keccak256(...)) % 13) + 1)`, with the
keccak output supplied as `entropy`. -/
def drawCard (entropy : Nat) : Nat := toUInt8 (entropy % 13 + 1)

/-- The confidential `Game` struct. -/
structure Game where
  player : Address
  wager : Enc Nat
  currentCard : Nat
  score : Enc Nat
  isActive : Bool
  timestamp : Nat
  gameSecret : Nat
deriving DecidableEq, Repr

/-- The plaintext `SimpleGame` struct. -/
structure SimpleGame where
  player : Address
  wager : Nat
  currentCard : Nat
  score : Nat
  isActive : Bool
  timestamp : Nat
  gameSecret : Nat
deriving DecidableEq, Repr

/-- Pointwise update of a mapping. -/
def upd (f : Address → α) (x : Address) (v : α) : Address → α :=
  fun y => if y = x then v else f y

theorem upd_same (f : Address → α) (x : Address) (v : α) : upd f x v x = v := by
  simp [upd]

theorem upd_other (f : Address → α) (x : Address) (v : α) (y : Address)
    (h : y ≠ x) : upd f x v y = f y := by
  simp [upd, h]

/-- The contract's storage. -/
structure State where
  encryptedBalances : Address → Enc Nat
  encryptedScores : Address → Enc Nat
  encryptedFlags : Address → Enc Bool
  hasDeposit : Address → Bool
  lastActivity : Address → Nat
  simpleBalances : Address → Nat
  games : Address → Game
  simpleGames : Address → SimpleGame

/-- Zero-initialised `Game` record. -/
def emptyGame : Game := ⟨0, ⟨0, false, []⟩, 0, ⟨0, false, []⟩, false, 0, 0⟩

/-- Zero-initialised `SimpleGame` record. -/
def emptySimpleGame : SimpleGame := ⟨0, 0, 0, 0, false, 0, 0⟩

/-- Freshly deployed contract storage. -/
def initState : State :=
  ⟨fun _ => ⟨0, false, []⟩, fun _ => ⟨0, false, []⟩, fun _ => ⟨false, false, []⟩,
   fun _ => false, fun _ => 0, fun _ => 0, fun _ => emptyGame, fun _ => emptySimpleGame⟩

/-- `depositEncrypted(_encryptedAmount, inputProof)` with attached
payment `msgValue`; `amount` is the proof-verified plaintext. -/
def depositEncrypted (s : State) (sender : Address) (msgValue amount timestamp : Nat) :
    Except String State :=
  if msgValue > 0 then
    let amt := fromExternal amount
    let newBal := allow (allowThis (fheAdd (s.encryptedBalances sender) amt)) sender
    .ok { s with
      encryptedBalances := upd s.encryptedBalances sender newBal,
      hasDeposit := upd s.hasDeposit sender true,
      lastActivity := upd s.lastActivity sender timestamp }
  else .error "Must send ETH with deposit"

/-- `simpleDeposit()` with attached payment `msgValue`. -/
def simpleDeposit (s : State) (sender : Address) (msgValue timestamp : Nat) :
    Except String State :=
  if msgValue > 0 then
    .ok { s with
      simpleBalances := upd s.simpleBalances sender (s.simpleBalances sender + msgValue),
      hasDeposit := upd s.hasDeposit sender true,
      lastActivity := upd s.lastActivity sender timestamp }
  else .error "Must send ETH with deposit"

/-- `fhevmDeposit()`: converts the paid wei amount, scaled down by
`1e14` and truncated to `uint32`, into an encrypted literal. -/
def fhevmDeposit (s : State) (sender : Address) (msgValue : Nat) :
    Except String State :=
  if msgValue > 0 then
    let encryptedAmount := asEuint32 (msgValue / 100000000000000)
    let newBal := allow (allowThis (fheAdd (s.encryptedBalances sender) encryptedAmount)) sender
    .ok { s with
      encryptedBalances := upd s.encryptedBalances sender newBal,
      hasDeposit := upd s.hasDeposit sender true }
  else .error "Must send ETH with deposit"

/-- `performArithmetic(_encryptedA, _encryptedB, proofA, proofB)`;
`a`, `b` are the proof-verified plaintexts. -/
def performArithmetic (s : State) (sender : Address) (a b timestamp : Nat) : State :=
  let ha := fromExternal a
  let hb := fromExternal b
  let sum := fheAdd ha hb
  let difference := fheSub ha hb
  let product := fheMul ha hb
  let newScore := allow (allowThis (fheAdd sum (fheAdd difference product))) sender
  { s with
    encryptedScores := upd s.encryptedScores sender newScore,
    lastActivity := upd s.lastActivity sender timestamp }

/-- `transferEncrypted(to, _encryptedAmount, inputProof)`. -/
def transferEncrypted (s : State) (sender toAddr : Address) (amount timestamp : Nat) :
    Except String State :=
  if toAddr = sender then .error "Cannot transfer to self"
  else if s.hasDeposit sender then
    let amt := fromExternal amount
    let newFrom := allow (allowThis (fheSub (s.encryptedBalances sender) amt)) sender
    let newTo := allow (allowThis (fheAdd (s.encryptedBalances toAddr) amt)) toAddr
    .ok { s with
      encryptedBalances := upd (upd s.encryptedBalances sender newFrom) toAddr newTo,
      hasDeposit := upd s.hasDeposit toAddr true,
      lastActivity := upd (upd s.lastActivity sender timestamp) toAddr timestamp }
  else .error "No balance available"

/-- `setEncryptedFlag(flag)`. -/
def setEncryptedFlag (s : State) (sender : Address) (flag : Bool) (timestamp : Nat) : State :=
  let f := allow (allowThis (asEbool flag)) sender
  { s with
    encryptedFlags := upd s.encryptedFlags sender f,
    lastActivity := upd s.lastActivity sender timestamp }

/-- `incrementScore()`. -/
def incrementScore (s : State) (sender : Address) (timestamp : Nat) :
    Except String State :=
  if s.hasDeposit sender then
    let increment := asEuint32 1
    let newScore := allow (allowThis (fheAdd (s.encryptedScores sender) increment)) sender
    .ok { s with
      encryptedScores := upd s.encryptedScores sender newScore,
      lastActivity := upd s.lastActivity sender timestamp }
  else .error "Must have deposit first"

/-- `startGame(_encryptedWager, inputProof)`; `wager` is the
proof-verified plaintext, `entropy` the keccak output for the starting
card, `secretSeed` the keccak output stored as `gameSecret`. -/
def startGame (s : State) (sender : Address) (wager timestamp entropy secretSeed : Nat) :
    Except String State :=
  if (s.games sender).isActive then .error "Game already in progress"
  else if s.hasDeposit sender then
    let w := fromExternal wager
    let newBal := fheSub (s.encryptedBalances sender) w
    let currentCard := drawCard entropy
    let game : Game :=
      { player := sender
        wager := allow (allowThis w) sender
        currentCard := currentCard
        score := allow (allowThis (asEuint32 0)) sender
        isActive := true
        timestamp := timestamp
        gameSecret := secretSeed }
    .ok { s with
      games := upd s.games sender game,
      encryptedBalances := upd s.encryptedBalances sender (allow (allowThis newBal) sender) }
  else .error "No balance available"

/-- `makeGuess(isHigher)`; returns `(correct, newCard)` alongside the
new state.  `entropy` is the keccak output for the drawn card. -/
def makeGuess (s : State) (sender : Address) (isHigher : Bool) (entropy : Nat) :
    Except String (State × Bool × Nat) :=
  let game := s.games sender
  if game.isActive then
    let newCard := drawCard entropy
    let correct : Bool :=
      if isHigher then decide (game.currentCard < newCard)
      else decide (newCard < game.currentCard)
    if correct then
      let newScore := fheAdd game.score (asEuint32 1)
      let multiplier := asEuint32 2
      let winnings := fheMul game.wager multiplier
      let newBal := allow (allowThis (fheAdd (s.encryptedBalances sender) winnings)) sender
      let game2 := { game with
        score := allow (allowThis newScore) sender,
        currentCard := newCard }
      .ok ({ s with
        games := upd s.games sender game2,
        encryptedBalances := upd s.encryptedBalances sender newBal }, true, newCard)
    else
      .ok ({ s with games := upd s.games sender { game with isActive := false } },
        false, newCard)
  else .error "No active game"

/-- `cashOut()`. -/
def cashOut (s : State) (sender : Address) : Except String State :=
  if (s.games sender).isActive then
    .ok { s with games := upd s.games sender { s.games sender with isActive := false } }
  else .error "No active game"

/-- `simpleStartGame(_wager)`. -/
def simpleStartGame (s : State) (sender : Address) (wager timestamp entropy secretSeed : Nat) :
    Except String State :=
  if (s.simpleGames sender).isActive then .error "Game already in progress"
  else if wager ≤ s.simpleBalances sender then
    let currentCard := drawCard entropy
    let game : SimpleGame :=
      { player := sender
        wager := wager
        currentCard := currentCard
        score := 0
        isActive := true
        timestamp := timestamp
        gameSecret := secretSeed }
    .ok { s with
      simpleGames := upd s.simpleGames sender game,
      simpleBalances := upd s.simpleBalances sender (s.simpleBalances sender - wager) }
  else .error "Insufficient balance"

/-- `simpleMakeGuess(isHigher)`; returns `(correct, newCard)` alongside
the new state. -/
def simpleMakeGuess (s : State) (sender : Address) (isHigher : Bool) (entropy : Nat) :
    Except String (State × Bool × Nat) :=
  let game := s.simpleGames sender
  if game.isActive then
    let newCard := drawCard entropy
    let correct : Bool :=
      if isHigher then decide (game.currentCard < newCard)
      else decide (newCard < game.currentCard)
    if correct then
      let winnings := game.wager * 15 / 10
      let game2 := { game with score := game.score + 1, currentCard := newCard }
      .ok ({ s with
        simpleGames := upd s.simpleGames sender game2,
        simpleBalances := upd s.simpleBalances sender (s.simpleBalances sender + winnings) },
        true, newCard)
    else
      .ok ({ s with simpleGames := upd s.simpleGames sender { game with isActive := false } },
        false, newCard)
  else .error "No active game"

/-- `simpleCashOut()`. -/
def simpleCashOut (s : State) (sender : Address) : Except String State :=
  if (s.simpleGames sender).isActive then
    .ok { s with
      simpleBalances :=
        upd s.simpleBalances sender (s.simpleBalances sender + (s.simpleGames sender).wager),
      simpleGames := upd s.simpleGames sender { s.simpleGames sender with isActive := false } }
  else .error "No active game"

/-- `getEncryptedBalance()`. -/
def getEncryptedBalance (s : State) (sender : Address) : Enc Nat :=
  s.encryptedBalances sender

/-- `getEncryptedScore()`. -/
def getEncryptedScore (s : State) (sender : Address) : Enc Nat :=
  s.encryptedScores sender

/-- `getEncryptedFlag()`. -/
def getEncryptedFlag (s : State) (sender : Address) : Enc Bool :=
  s.encryptedFlags sender

/-- `getSimpleBalance()`. -/
def getSimpleBalance (s : State) (sender : Address) : Nat :=
  s.simpleBalances sender

/-- `hasBalanceDeposited()`. -/
def hasBalanceDeposited (s : State) (sender : Address) : Bool :=
  s.hasDeposit sender

/-- `getCurrentSimpleGame()`: `(currentCard, isActive, timestamp, score, wager)`. -/
def getCurrentSimpleGame (s : State) (sender : Address) :
    Nat × Bool × Nat × Nat × Nat :=
  let game := s.simpleGames sender
  (game.currentCard, game.isActive, game.timestamp, game.score, game.wager)

/-- `getEncryptedWager()`. -/
def getEncryptedWager (s : State) (sender : Address) : Enc Nat :=
  (s.games sender).wager

/-- `grantAllPermissions()`. -/
def grantAllPermissions (s : State) (sender : Address) (timestamp : Nat) : State :=
  let grantedBal := upd s.encryptedBalances sender
    (allow (allowThis (s.encryptedBalances sender)) sender)
  let s1 :=
    if s.hasDeposit sender then { s with encryptedBalances := grantedBal }
    else s
  { s1 with
    encryptedScores :=
      upd s1.encryptedScores sender (allow (allowThis (s1.encryptedScores sender)) sender),
    encryptedFlags :=
      upd s1.encryptedFlags sender (allow (allowThis (s1.encryptedFlags sender)) sender),
    lastActivity := upd s1.lastActivity sender timestamp }

/-- `resetUserData()`. -/
def resetUserData (s : State) (sender : Address) (timestamp : Nat) : State :=
  { s with
    encryptedBalances :=
      upd s.encryptedBalances sender (allow (allowThis (asEuint32 0)) sender),
    encryptedScores :=
      upd s.encryptedScores sender (allow (allowThis (asEuint32 0)) sender),
    encryptedFlags :=
      upd s.encryptedFlags sender (allow (allowThis (asEbool false)) sender),
    hasDeposit := upd s.hasDeposit sender false,
    lastActivity := upd s.lastActivity sender timestamp }

/-- One state-mutating external call, with its sender and all
environment-supplied inputs. -/
inductive Op where
  | opDepositEncrypted (sender msgValue amount timestamp : Nat)
  | opSimpleDeposit (sender msgValue timestamp : Nat)
  | opFhevmDeposit (sender msgValue : Nat)
  | opPerformArithmetic (sender a b timestamp : Nat)
  | opTransferEncrypted (sender toAddr amount timestamp : Nat)
  | opSetEncryptedFlag (sender : Nat) (flag : Bool) (timestamp : Nat)
  | opIncrementScore (sender timestamp : Nat)
  | opStartGame (sender wager timestamp entropy secretSeed : Nat)
  | opMakeGuess (sender : Nat) (isHigher : Bool) (entropy : Nat)
  | opCashOut (sender : Nat)
  | opSimpleStartGame (sender wager timestamp entropy secretSeed : Nat)
  | opSimpleMakeGuess (sender : Nat) (isHigher : Bool) (entropy : Nat)
  | opSimpleCashOut (sender : Nat)
  | opGrantAllPermissions (sender timestamp : Nat)
  | opResetUserData (sender timestamp : Nat)
deriving DecidableEq, Repr

/-- Dispatch one external call against the storage. -/
def exec (s : State) : Op → Except String State
  | .opDepositEncrypted sender v a t => depositEncrypted s sender v a t
  | .opSimpleDeposit sender v t => simpleDeposit s sender v t
  | .opFhevmDeposit sender v => fhevmDeposit s sender v
  | .opPerformArithmetic sender a b t => .ok (performArithmetic s sender a b t)
  | .opTransferEncrypted sender toAddr a t => transferEncrypted s sender toAddr a t
  | .opSetEncryptedFlag sender f t => .ok (setEncryptedFlag s sender f t)
  | .opIncrementScore sender t => incrementScore s sender t
  | .opStartGame sender w t e sd => startGame s sender w t e sd
  | .opMakeGuess sender hi e => (makeGuess s sender hi e).map (fun r => r.1)
  | .opCashOut sender => cashOut s sender
  | .opSimpleStartGame sender w t e sd => simpleStartGame s sender w t e sd
  | .opSimpleMakeGuess sender hi e => (simpleMakeGuess s sender hi e).map (fun r => r.1)
  | .opSimpleCashOut sender => simpleCashOut s sender
  | .opGrantAllPermissions sender t => .ok (grantAllPermissions s sender t)
  | .opResetUserData sender t => .ok (resetUserData s sender t)

end FHEVM

namespace FHEVM

theorem allow_val (h : Enc α) (p : Address) : (allow h p).val = h.val := rfl

theorem allowThis_val (h : Enc α) : (allowThis h).val = h.val := rfl

theorem bothGrants_allow_allowThis (h : Enc α) (p : Address) :
    bothGrants (allow (allowThis h) p) p := by
  simp [bothGrants, allow, allowThis]

/-- The plaintext stored by `performArithmetic` in closed form:
`(a+b) + (a-b) + (a*b)` over wrapping 32-bit arithmetic collapses to
`2a + a*b (mod 2^32)`. -/
theorem performArithmetic_val (s : State) (sender : Address) (a b t : Nat) :
    ((performArithmetic s sender a b t).encryptedScores sender).val
      = (2 * (a % M) + a % M * (b % M)) % M := by
  simp only [performArithmetic, fheAdd, fheSub, fheMul, fromExternal, allow, allowThis,
    upd_same]
  have ha : a % M < M := Nat.mod_lt _ (by simp [M])
  have hb : b % M < M := Nat.mod_lt _ (by simp [M])
  generalize a % M = x at *
  generalize b % M = y at *
  generalize hq : x * y = q
  simp only [M] at *
  omega

end FHEVM

namespace FHEVM

/-- Claim C1 counterexample: with validated operands `a=1, b=0` the stored
score plaintext is `2`, but with the operands swapped it is `0`: the
combination `(a+b)+(a-b)+(a*b)` over wrapping 32-bit arithmetic is not
order-independent. -/
theorem performArithmetic_swap_counterexample :
    ((performArithmetic initState 0 1 0 0).encryptedScores 0).val = 2 ∧
    ((performArithmetic initState 0 0 1 0).encryptedScores 0).val = 0 ∧
    ((performArithmetic initState 0 1 0 0).encryptedScores 0).val ≠
      ((performArithmetic initState 0 0 1 0).encryptedScores 0).val :=
  ⟨by decide, by decide, by decide⟩

/-- Claim C1 (amended): for every pair of validated operands `a`, `b`,
`performArithmetic` stores into the caller score the value
`(a+b) + (a-b) + (a*b)` computed over encrypted wrapping 32-bit values;
this combination is order-dependent in general: swapping the two
operands yields the same stored score exactly when `2a = 2b (mod 2^32)`. -/
theorem performArithmetic_stores_combination (s : State) (sender : Address) (a b t : Nat) :
    ((performArithmetic s sender a b t).encryptedScores sender).val
      = ((a % M + b % M) + ((M + a % M - b % M) % M) + (a % M * (b % M))) % M ∧
    (((performArithmetic s sender a b t).encryptedScores sender).val
        = ((performArithmetic s sender b a t).encryptedScores sender).val
      ↔ Nat.ModEq M (2 * a) (2 * b)) := by
  have h1 := performArithmetic_val s sender a b t
  have h2 := performArithmetic_val s sender b a t
  constructor
  · rw [h1]
    have ha : a % M < M := Nat.mod_lt _ (by simp [M])
    have hb : b % M < M := Nat.mod_lt _ (by simp [M])
    generalize a % M = x at *
    generalize b % M = y at *
    generalize x * y = q
    simp only [M] at *
    omega
  · rw [h1, h2, Nat.mul_comm (b % M) (a % M)]
    show _ ↔ (2 * a) % M = (2 * b) % M
    generalize a % M * (b % M) = q
    simp only [M]
    omega

/-- Claim C2 counterexample: after a plaintext deposit of 5 wei,
`resetUserData` followed by the balance query `getSimpleBalance` returns
5, not the default zero: the reset does not clear the simple ledger. -/
theorem resetUserData_query_counterexample :
    Except.map (fun s2 => getSimpleBalance (resetUserData s2 0 1) 0)
      (simpleDeposit initState 0 5 0) = Except.ok 5 ∧ (5 : Nat) ≠ 0 :=
  ⟨by rfl, by decide⟩

/-- Claim C2 (amended): `resetUserData` resets the encrypted balance,
score and flag of the caller to default-zero encrypted values and sets
`hasDeposited = false`, so the encrypted queries after reset observe
defaults; the plaintext simple balance and the simple game record are
left unchanged, so plaintext queries may still observe nonzero values. -/
theorem resetUserData_resets_encrypted_state (s : State) (sender : Address) (t : Nat) :
    (getEncryptedBalance (resetUserData s sender t) sender).val = 0 ∧
    (getEncryptedScore (resetUserData s sender t) sender).val = 0 ∧
    (getEncryptedFlag (resetUserData s sender t) sender).val = false ∧
    hasBalanceDeposited (resetUserData s sender t) sender = false ∧
    getSimpleBalance (resetUserData s sender t) sender = getSimpleBalance s sender ∧
    getCurrentSimpleGame (resetUserData s sender t) sender = getCurrentSimpleGame s sender := by
  simp [resetUserData, getEncryptedBalance, getEncryptedScore, getEncryptedFlag,
    hasBalanceDeposited, getSimpleBalance, getCurrentSimpleGame, upd,
    asEuint32, asEbool, allow, allowThis, M]

end FHEVM

namespace FHEVM

/-- Claim C3: on the confidential path, a debit (`transferEncrypted` or
`startGame`) never fails with an insufficient-balance error for any
balance and amount: whenever the other preconditions hold (recipient is
not the caller, prior deposit, no active game) the operation succeeds
for every amount, and the resulting balance plaintext is the unsigned
wraparound `(balance - amount) mod 2^32`; in particular when the debited
amount exceeds the balance the result is `2^32 + balance - amount` with
no error reported. -/
theorem confidential_debit_wraps (s : State) (sender toAddr : Address)
    (amount wager ts ent seed : Nat)
    (hto : toAddr ≠ sender) (hdep : s.hasDeposit sender = true)
    (hgame : (s.games sender).isActive = false)
    (hbal : (s.encryptedBalances sender).val < M) (hamt : amount < M) (hw : wager < M) :
    (∃ s2, transferEncrypted s sender toAddr amount ts = .ok s2 ∧
      (s2.encryptedBalances sender).val
        = (M + (s.encryptedBalances sender).val - amount) % M) ∧
    (∃ s3, startGame s sender wager ts ent seed = .ok s3 ∧
      (s3.encryptedBalances sender).val
        = (M + (s.encryptedBalances sender).val - wager) % M) ∧
    ((s.encryptedBalances sender).val < amount →
      ∀ s2, transferEncrypted s sender toAddr amount ts = .ok s2 →
        (s2.encryptedBalances sender).val
          = M + (s.encryptedBalances sender).val - amount) := by
  have hamod : amount % M = amount := Nat.mod_eq_of_lt hamt
  have hwmod : wager % M = wager := Nat.mod_eq_of_lt hw
  have hbmod : (s.encryptedBalances sender).val % M = (s.encryptedBalances sender).val :=
    Nat.mod_eq_of_lt hbal
  have hto2 : sender ≠ toAddr := Ne.symm hto
  have htrans : ∃ s2, transferEncrypted s sender toAddr amount ts = .ok s2 ∧
      (s2.encryptedBalances sender).val
        = (M + (s.encryptedBalances sender).val - amount) % M := by
    unfold transferEncrypted
    rw [if_neg hto, if_pos hdep]
    refine ⟨_, rfl, ?_⟩
    simp [upd, hto2, fheSub, fromExternal, allow, allowThis, hamod, hbmod]
  refine ⟨htrans, ?_, ?_⟩
  · unfold startGame
    rw [if_neg (by simp [hgame]), if_pos hdep]
    refine ⟨_, rfl, ?_⟩
    simp [upd, fheSub, fromExternal, allow, allowThis, hwmod, hbmod]
  · intro hover s2 hok
    obtain ⟨s3, hok3, hval⟩ := htrans
    rw [hok3] at hok
    cases hok
    rw [hval]
    have hlt : M + (s.encryptedBalances sender).val - amount < M := by omega
    exact Nat.mod_eq_of_lt hlt

/-- A concrete account state: principal 0 holds an encrypted balance of
plaintext 5 and has a deposit on record. -/
def smallBalanceState : State :=
  { initState with
    hasDeposit := upd initState.hasDeposit 0 true,
    encryptedBalances := upd initState.encryptedBalances 0 ⟨5, true, [0]⟩ }

/-- Witness for claim C3: principal 0 with balance 5 transfers 7 to
principal 1 with no error, and the resulting balance wraps to
`2^32 + 5 - 7`. -/
theorem confidential_debit_wraps_witness :
    (smallBalanceState.encryptedBalances 0).val < 7 ∧
    (∃ s2, transferEncrypted smallBalanceState 0 1 7 0 = .ok s2 ∧
      (s2.encryptedBalances 0).val
        = (M + (smallBalanceState.encryptedBalances 0).val - 7) % M) ∧
    (∀ s2, transferEncrypted smallBalanceState 0 1 7 0 = .ok s2 →
      (s2.encryptedBalances 0).val
        = M + (smallBalanceState.encryptedBalances 0).val - 7) := by
  have h := confidential_debit_wraps smallBalanceState 0 1 7 3 0 0 0
    (by decide) (by rfl) (by rfl) (by decide) (by decide) (by decide)
  exact ⟨by decide, h.1, h.2.2 (by decide)⟩

end FHEVM

namespace FHEVM

/-- Claim C4: on either ledger variant, if the newly drawn card equals
the current card then the guess is settled as incorrect, both for a
higher guess and for a lower guess. -/
theorem tie_guess_incorrect (s : State) (sender : Address) (e1 e2 : Nat)
    (hg : (s.games sender).isActive = true)
    (ht : drawCard e1 = (s.games sender).currentCard)
    (hsg : (s.simpleGames sender).isActive = true)
    (hst : drawCard e2 = (s.simpleGames sender).currentCard) :
    Except.map (fun r => (r.2.1, r.2.2)) (makeGuess s sender true e1)
      = .ok (false, drawCard e1) ∧
    Except.map (fun r => (r.2.1, r.2.2)) (makeGuess s sender false e1)
      = .ok (false, drawCard e1) ∧
    Except.map (fun r => (r.2.1, r.2.2)) (simpleMakeGuess s sender true e2)
      = .ok (false, drawCard e2) ∧
    Except.map (fun r => (r.2.1, r.2.2)) (simpleMakeGuess s sender false e2)
      = .ok (false, drawCard e2) := by
  refine ⟨?_, ?_, ?_, ?_⟩ <;>
    simp [makeGuess, simpleMakeGuess, Except.map, hg, hsg, ht, hst, Nat.lt_irrefl]

/-- A state where principal 0 has an active game and an active simple
game, both sitting on card 1. -/
def tieState : State :=
  { initState with
    games := upd initState.games 0 { emptyGame with isActive := true, currentCard := 1 },
    simpleGames :=
      upd initState.simpleGames 0 { emptySimpleGame with isActive := true, currentCard := 1 } }

/-- Witness for claim C4: with entropy 0 the drawn card is 1, equal to
the current card, and all four guesses come back incorrect. -/
theorem tie_guess_incorrect_witness :
    Except.map (fun r => (r.2.1, r.2.2)) (makeGuess tieState 0 true 0)
      = .ok (false, drawCard 0) ∧
    Except.map (fun r => (r.2.1, r.2.2)) (makeGuess tieState 0 false 0)
      = .ok (false, drawCard 0) ∧
    Except.map (fun r => (r.2.1, r.2.2)) (simpleMakeGuess tieState 0 true 0)
      = .ok (false, drawCard 0) ∧
    Except.map (fun r => (r.2.1, r.2.2)) (simpleMakeGuess tieState 0 false 0)
      = .ok (false, drawCard 0) :=
  tie_guess_incorrect tieState 0 0 0 (by decide) (by decide) (by decide) (by decide)

end FHEVM

namespace FHEVM

/-- Claim C5: on the plaintext path, for every active game a correct
guess in `simpleMakeGuess` increments the game score by exactly 1, sets
`currentCard` to the newly drawn card, credits exactly `wager * 15 / 10`
(1.5 times the wager) to the caller simple balance, and leaves the
record active; an incorrect guess sets `isActive` to false and credits
nothing. -/
theorem simpleMakeGuess_settlement (s : State) (sender : Address) (hi : Bool) (e : Nat)
    (hg : (s.simpleGames sender).isActive = true) :
    ∃ s2 c, simpleMakeGuess s sender hi e = .ok (s2, c, drawCard e) ∧
      c = (if hi then decide ((s.simpleGames sender).currentCard < drawCard e)
           else decide (drawCard e < (s.simpleGames sender).currentCard)) ∧
      (c = true →
        s2.simpleGames sender
          = { s.simpleGames sender with
              score := (s.simpleGames sender).score + 1, currentCard := drawCard e } ∧
        (s2.simpleGames sender).isActive = true ∧
        s2.simpleBalances sender
          = s.simpleBalances sender + (s.simpleGames sender).wager * 15 / 10) ∧
      (c = false →
        s2.simpleGames sender = { s.simpleGames sender with isActive := false } ∧
        s2.simpleBalances sender = s.simpleBalances sender) := by
  cases hcor : (if hi then decide ((s.simpleGames sender).currentCard < drawCard e)
      else decide (drawCard e < (s.simpleGames sender).currentCard)) with
  | true =>
    refine ⟨{ s with
        simpleGames := upd s.simpleGames sender
          { s.simpleGames sender with
            score := (s.simpleGames sender).score + 1, currentCard := drawCard e },
        simpleBalances := upd s.simpleBalances sender
          (s.simpleBalances sender + (s.simpleGames sender).wager * 15 / 10) },
      true, ?_, rfl, ?_, ?_⟩
    · simp [simpleMakeGuess, hg, hcor]
    · intro _
      refine ⟨by simp [upd], by simp [upd, hg], by simp [upd]⟩
    · intro h
      exact absurd h (by simp)
  | false =>
    refine ⟨{ s with
        simpleGames := upd s.simpleGames sender
          { s.simpleGames sender with isActive := false } },
      false, ?_, rfl, ?_, ?_⟩
    · simp [simpleMakeGuess, hg, hcor]
    · intro h
      exact absurd h (by simp)
    · intro _
      exact ⟨by simp [upd], by simp [upd]⟩

/-- Witness for claim C5: in the active simple game on card 1, entropy 1
draws card 2, so a higher guess settles as correct with score 1, card 2
and a 1.5-times credit. -/
theorem simpleMakeGuess_settlement_witness :
    ∃ s2 c, simpleMakeGuess tieState 0 true 1 = .ok (s2, c, drawCard 1) ∧
      c = (if true then decide ((tieState.simpleGames 0).currentCard < drawCard 1)
           else decide (drawCard 1 < (tieState.simpleGames 0).currentCard)) ∧
      (c = true →
        s2.simpleGames 0
          = { tieState.simpleGames 0 with
              score := (tieState.simpleGames 0).score + 1, currentCard := drawCard 1 } ∧
        (s2.simpleGames 0).isActive = true ∧
        s2.simpleBalances 0
          = tieState.simpleBalances 0 + (tieState.simpleGames 0).wager * 15 / 10) ∧
      (c = false →
        s2.simpleGames 0 = { tieState.simpleGames 0 with isActive := false } ∧
        s2.simpleBalances 0 = tieState.simpleBalances 0) :=
  simpleMakeGuess_settlement tieState 0 true 1 (by decide)

/-- Claim C8: on the plaintext path, for every caller with no active
simple game, `simpleStartGame(wager)` fails with the insufficient-balance
error whenever the caller simple balance is strictly below the wager;
when the balance suffices it debits exactly the wager and stores an
active game record with a drawn starting card. -/
theorem simpleStartGame_guard (s : State) (sender : Address) (w t e sd : Nat)
    (hg : (s.simpleGames sender).isActive = false) :
    (s.simpleBalances sender < w →
      simpleStartGame s sender w t e sd = .error "Insufficient balance") ∧
    (w ≤ s.simpleBalances sender →
      ∃ s2, simpleStartGame s sender w t e sd = .ok s2 ∧
        s2.simpleBalances sender = s.simpleBalances sender - w ∧
        s2.simpleGames sender
          = { player := sender, wager := w, currentCard := drawCard e, score := 0,
              isActive := true, timestamp := t, gameSecret := sd }) := by
  constructor
  · intro hlt
    unfold simpleStartGame
    rw [if_neg (by simp [hg]), if_neg (by omega)]
  · intro hle
    unfold simpleStartGame
    rw [if_neg (by simp [hg]), if_pos hle]
    exact ⟨_, rfl, by simp [upd], by simp [upd]⟩

/-- A state where principal 0 has a simple balance of 3 and no active
simple game. -/
def simpleFundedState : State :=
  { initState with
    simpleBalances := upd initState.simpleBalances 0 3,
    hasDeposit := upd initState.hasDeposit 0 true }

/-- Witness for claim C8: with balance 3, a wager of 5 fails with the
insufficient-balance error and a wager of 2 starts an active game,
debiting exactly 2. -/
theorem simpleStartGame_guard_witness :
    simpleStartGame simpleFundedState 0 5 0 0 0 = .error "Insufficient balance" ∧
    (∃ s2, simpleStartGame simpleFundedState 0 2 0 0 0 = .ok s2 ∧
      s2.simpleBalances 0 = simpleFundedState.simpleBalances 0 - 2 ∧
      s2.simpleGames 0
        = { player := 0, wager := 2, currentCard := drawCard 0, score := 0,
            isActive := true, timestamp := 0, gameSecret := 0 }) :=
  ⟨(simpleStartGame_guard simpleFundedState 0 5 0 0 0 (by decide)).1 (by decide),
   (simpleStartGame_guard simpleFundedState 0 2 0 0 0 (by decide)).2 (by decide)⟩

end FHEVM

namespace FHEVM

theorem drawCard_range (e : Nat) : 1 ≤ drawCard e ∧ drawCard e ≤ 13 := by
  unfold drawCard toUInt8
  omega

/-- Claim C9: every card produced by a draw, on either path, lies in the
inclusive range 1 to 13, for all values of the environment-supplied
entropy: this holds for the `drawCard` function itself and for the card
stored or returned by `startGame`, `makeGuess`, `simpleStartGame` and
`simpleMakeGuess` on success. -/
theorem card_draws_in_range :
    (∀ e, 1 ≤ drawCard e ∧ drawCard e ≤ 13) ∧
    (∀ s p w t e sd s2, startGame s p w t e sd = Except.ok s2 →
      1 ≤ (s2.games p).currentCard ∧ (s2.games p).currentCard ≤ 13) ∧
    (∀ s p hi e r, makeGuess s p hi e = Except.ok r →
      1 ≤ r.2.2 ∧ r.2.2 ≤ 13) ∧
    (∀ s p w t e sd s2, simpleStartGame s p w t e sd = Except.ok s2 →
      1 ≤ (s2.simpleGames p).currentCard ∧ (s2.simpleGames p).currentCard ≤ 13) ∧
    (∀ s p hi e r, simpleMakeGuess s p hi e = Except.ok r →
      1 ≤ r.2.2 ∧ r.2.2 ≤ 13) := by
  refine ⟨drawCard_range, ?_, ?_, ?_, ?_⟩
  · intro s p w t e sd s2 hok
    unfold startGame at hok
    split at hok
    · exact absurd hok (by simp)
    split at hok
    · cases hok
      simpa [upd] using drawCard_range e
    · exact absurd hok (by simp)
  · intro s p hi e r hok
    simp only [makeGuess] at hok
    repeat' split at hok
    all_goals first
      | (cases hok; simpa using drawCard_range e)
      | exact absurd hok (by simp)
  · intro s p w t e sd s2 hok
    unfold simpleStartGame at hok
    split at hok
    · exact absurd hok (by simp)
    split at hok
    · cases hok
      simpa [upd] using drawCard_range e
    · exact absurd hok (by simp)
  · intro s p hi e r hok
    simp only [simpleMakeGuess] at hok
    repeat' split at hok
    all_goals first
      | (cases hok; simpa using drawCard_range e)
      | exact absurd hok (by simp)

/-- Witness for claim C9: a concrete successful `simpleStartGame` whose
stored starting card is in range. -/
theorem card_draws_in_range_witness :
    ∃ s2, simpleStartGame simpleFundedState 0 2 0 7 0 = Except.ok s2 ∧
      1 ≤ (s2.simpleGames 0).currentCard ∧ (s2.simpleGames 0).currentCard ≤ 13 := by
  refine ⟨_, rfl, ?_⟩
  exact card_draws_in_range.2.2.2.1 simpleFundedState 0 2 0 7 0 _ rfl

/-- Claim C10: `grantAllPermissions` grants decryption rights on the
caller score and flag handles unconditionally, but grants on the caller
balance handle only when a deposit is on record; for a caller with no
recorded deposit the permission state of the balance slot is left
entirely unchanged. -/
theorem grantAllPermissions_slots (s : State) (sender : Address) (t : Nat) :
    bothGrants ((grantAllPermissions s sender t).encryptedScores sender) sender ∧
    bothGrants ((grantAllPermissions s sender t).encryptedFlags sender) sender ∧
    (s.hasDeposit sender = false →
      (grantAllPermissions s sender t).encryptedBalances = s.encryptedBalances) ∧
    (s.hasDeposit sender = true →
      bothGrants ((grantAllPermissions s sender t).encryptedBalances sender) sender) := by
  refine ⟨?_, ?_, ?_, ?_⟩
  · by_cases hd : s.hasDeposit sender <;>
      simp [grantAllPermissions, hd, upd, bothGrants, allow, allowThis]
  · by_cases hd : s.hasDeposit sender <;>
      simp [grantAllPermissions, hd, upd, bothGrants, allow, allowThis]
  · intro hd
    simp [grantAllPermissions, hd]
  · intro hd
    simp [grantAllPermissions, hd, upd, bothGrants, allow, allowThis]

/-- Witness for claim C10: on the fresh state, where principal 0 has no
deposit, the call changes no balance slot but grants on score and flag. -/
theorem grantAllPermissions_slots_witness :
    (grantAllPermissions initState 0 0).encryptedBalances = initState.encryptedBalances ∧
    bothGrants ((grantAllPermissions initState 0 0).encryptedScores 0) 0 ∧
    bothGrants ((grantAllPermissions initState 0 0).encryptedFlags 0) 0 :=
  ⟨(grantAllPermissions_slots initState 0 0).2.2.1 rfl,
   (grantAllPermissions_slots initState 0 0).1,
   (grantAllPermissions_slots initState 0 0).2.1⟩

end FHEVM

namespace FHEVM

/-- Claim C6: per principal and per ledger variant there is a single
game-record slot, and at most one of them is active: `startGame` and
`simpleStartGame` fail with the game-already-active error whenever the
caller record of the same variant is active, and for every operation of
the contract, a principal record can only become active through that
principal own `startGame`/`simpleStartGame` from an inactive record. -/
theorem single_active_game (s : State) (op : Op) (s2 : State)
    (sender : Address) (w t e sd : Nat) :
    ((s.games sender).isActive = true →
      startGame s sender w t e sd = .error "Game already in progress") ∧
    ((s.simpleGames sender).isActive = true →
      simpleStartGame s sender w t e sd = .error "Game already in progress") ∧
    (exec s op = .ok s2 →
      ∀ p, ((s2.games p).isActive = true →
              (s.games p).isActive = true ∨
              ∃ w2 t2 e2 sd2, op = .opStartGame p w2 t2 e2 sd2 ∧
                (s.games p).isActive = false) ∧
           ((s2.simpleGames p).isActive = true →
              (s.simpleGames p).isActive = true ∨
              ∃ w2 t2 e2 sd2, op = .opSimpleStartGame p w2 t2 e2 sd2 ∧
                (s.simpleGames p).isActive = false)) := by
  refine ⟨?_, ?_, ?_⟩
  · intro hg
    unfold startGame
    rw [if_pos hg]
  · intro hg
    unfold simpleStartGame
    rw [if_pos hg]
  · intro hok p
    cases op with
    | opDepositEncrypted s3 v a t2 =>
      simp only [exec, depositEncrypted] at hok
      repeat' split at hok
      all_goals cases hok
      all_goals exact ⟨fun h => Or.inl h, fun h => Or.inl h⟩
    | opSimpleDeposit s3 v t2 =>
      simp only [exec, simpleDeposit] at hok
      repeat' split at hok
      all_goals cases hok
      all_goals exact ⟨fun h => Or.inl h, fun h => Or.inl h⟩
    | opFhevmDeposit s3 v =>
      simp only [exec, fhevmDeposit] at hok
      repeat' split at hok
      all_goals cases hok
      all_goals exact ⟨fun h => Or.inl h, fun h => Or.inl h⟩
    | opPerformArithmetic s3 a b t2 =>
      simp only [exec, performArithmetic] at hok
      cases hok
      exact ⟨fun h => Or.inl h, fun h => Or.inl h⟩
    | opTransferEncrypted s3 to2 a t2 =>
      simp only [exec, transferEncrypted] at hok
      repeat' split at hok
      all_goals cases hok
      all_goals exact ⟨fun h => Or.inl h, fun h => Or.inl h⟩
    | opSetEncryptedFlag s3 f t2 =>
      simp only [exec, setEncryptedFlag] at hok
      cases hok
      exact ⟨fun h => Or.inl h, fun h => Or.inl h⟩
    | opIncrementScore s3 t2 =>
      simp only [exec, incrementScore] at hok
      repeat' split at hok
      all_goals cases hok
      all_goals exact ⟨fun h => Or.inl h, fun h => Or.inl h⟩
    | opStartGame s3 w2 t2 e2 sd2 =>
      simp only [exec, startGame] at hok
      split at hok
      · cases hok
      · rename_i hact
        split at hok
        · cases hok
          refine ⟨?_, fun h => Or.inl h⟩
          intro h
          by_cases hp : p = s3
          · subst hp
            exact Or.inr ⟨w2, t2, e2, sd2, rfl, by simpa using hact⟩
          · exact Or.inl (by simpa [upd, hp] using h)
        · cases hok
    | opMakeGuess s3 hi e2 =>
      simp only [exec, makeGuess, Except.map] at hok
      repeat' split at hok
      all_goals cases hok
      all_goals rename_i r heq
      all_goals (repeat' split at heq)
      all_goals cases heq
      all_goals
        (refine ⟨?_, fun h => Or.inl h⟩
         intro h
         by_cases hp : p = s3
         · subst hp
           simp only [upd_same] at h
           first
             | exact Or.inl h
             | simp at h
         · exact Or.inl (by simpa [upd, hp] using h))
    | opCashOut s3 =>
      simp only [exec, cashOut] at hok
      repeat' split at hok
      all_goals cases hok
      all_goals
        (refine ⟨?_, fun h => Or.inl h⟩
         intro h
         by_cases hp : p = s3
         · subst hp
           simp [upd] at h
         · exact Or.inl (by simpa [upd, hp] using h))
    | opSimpleStartGame s3 w2 t2 e2 sd2 =>
      simp only [exec, simpleStartGame] at hok
      split at hok
      · cases hok
      · rename_i hact
        split at hok
        · cases hok
          refine ⟨fun h => Or.inl h, ?_⟩
          intro h
          by_cases hp : p = s3
          · subst hp
            exact Or.inr ⟨w2, t2, e2, sd2, rfl, by simpa using hact⟩
          · exact Or.inl (by simpa [upd, hp] using h)
        · cases hok
    | opSimpleMakeGuess s3 hi e2 =>
      simp only [exec, simpleMakeGuess, Except.map] at hok
      repeat' split at hok
      all_goals cases hok
      all_goals rename_i r heq
      all_goals (repeat' split at heq)
      all_goals cases heq
      all_goals
        (refine ⟨fun h => Or.inl h, ?_⟩
         intro h
         by_cases hp : p = s3
         · subst hp
           simp only [upd_same] at h
           first
             | exact Or.inl h
             | simp at h
         · exact Or.inl (by simpa [upd, hp] using h))
    | opSimpleCashOut s3 =>
      simp only [exec, simpleCashOut] at hok
      repeat' split at hok
      all_goals cases hok
      all_goals
        (refine ⟨fun h => Or.inl h, ?_⟩
         intro h
         by_cases hp : p = s3
         · subst hp
           simp [upd] at h
         · exact Or.inl (by simpa [upd, hp] using h))
    | opGrantAllPermissions s3 t2 =>
      simp only [exec, grantAllPermissions] at hok
      repeat' split at hok
      all_goals cases hok
      all_goals exact ⟨fun h => Or.inl h, fun h => Or.inl h⟩
    | opResetUserData s3 t2 =>
      simp only [exec, resetUserData] at hok
      cases hok
      exact ⟨fun h => Or.inl h, fun h => Or.inl h⟩

/-- Witness for claim C6: with both records of principal 0 active, both
start operations fail with the game-already-active error. -/
theorem single_active_game_witness :
    startGame tieState 0 1 2 3 4 = .error "Game already in progress" ∧
    simpleStartGame tieState 0 1 2 3 4 = .error "Game already in progress" :=
  ⟨(single_active_game tieState (Op.opCashOut 0) tieState 0 1 2 3 4).1 (by decide),
   (single_active_game tieState (Op.opCashOut 0) tieState 0 1 2 3 4).2.1 (by decide)⟩

end FHEVM

namespace FHEVM

/-- Claim C7: after every operation that replaces a confidential
balance, score, flag, game-wager or game-score handle in a current slot,
the new handle in that slot carries both grants — the engine itself and
the owning principal — in the same atomic step: in the post-state of
every successful operation, any current-slot handle that differs from
the pre-state one has both grants. -/
theorem replaced_handle_grants (s : State) (op : Op) (s2 : State)
    (hok : exec s op = .ok s2) (p : Address) :
    (s2.encryptedBalances p ≠ s.encryptedBalances p →
      bothGrants (s2.encryptedBalances p) p) ∧
    (s2.encryptedScores p ≠ s.encryptedScores p →
      bothGrants (s2.encryptedScores p) p) ∧
    (s2.encryptedFlags p ≠ s.encryptedFlags p →
      bothGrants (s2.encryptedFlags p) p) ∧
    ((s2.games p).wager ≠ (s.games p).wager → bothGrants (s2.games p).wager p) ∧
    ((s2.games p).score ≠ (s.games p).score → bothGrants (s2.games p).score p) := by
  cases op with
  | opDepositEncrypted s3 v a t2 =>
    simp only [exec, depositEncrypted] at hok
    repeat' split at hok
    all_goals cases hok
    all_goals refine ⟨?_, ?_, ?_, ?_, ?_⟩
    all_goals
      (intro hne
       by_cases hp : p = s3
       · subst hp
         simp [upd, bothGrants, allow, allowThis] at hne ⊢
       · exact absurd (by simp [upd, hp]) hne)
  | opSimpleDeposit s3 v t2 =>
    simp only [exec, simpleDeposit] at hok
    repeat' split at hok
    all_goals cases hok
    all_goals refine ⟨?_, ?_, ?_, ?_, ?_⟩
    all_goals
      (intro hne
       by_cases hp : p = s3
       · subst hp
         simp [upd, bothGrants, allow, allowThis] at hne ⊢
       · exact absurd (by simp [upd, hp]) hne)
  | opFhevmDeposit s3 v =>
    simp only [exec, fhevmDeposit] at hok
    repeat' split at hok
    all_goals cases hok
    all_goals refine ⟨?_, ?_, ?_, ?_, ?_⟩
    all_goals
      (intro hne
       by_cases hp : p = s3
       · subst hp
         simp [upd, bothGrants, allow, allowThis] at hne ⊢
       · exact absurd (by simp [upd, hp]) hne)
  | opPerformArithmetic s3 a b t2 =>
    simp only [exec, performArithmetic] at hok
    cases hok
    refine ⟨?_, ?_, ?_, ?_, ?_⟩
    all_goals
      (intro hne
       by_cases hp : p = s3
       · subst hp
         simp [upd, bothGrants, allow, allowThis] at hne ⊢
       · exact absurd (by simp [upd, hp]) hne)
  | opTransferEncrypted s3 to2 a t2 =>
    simp only [exec, transferEncrypted] at hok
    repeat' split at hok
    all_goals cases hok
    all_goals refine ⟨?_, ?_, ?_, ?_, ?_⟩
    all_goals
      (intro hne
       by_cases hp2 : p = to2
       · subst hp2
         simp [upd, bothGrants, allow, allowThis] at hne ⊢
       · by_cases hp : p = s3
         · subst hp
           simp [upd, hp2, bothGrants, allow, allowThis] at hne ⊢
         · exact absurd (by simp [upd, hp, hp2]) hne)
  | opSetEncryptedFlag s3 f t2 =>
    simp only [exec, setEncryptedFlag] at hok
    cases hok
    refine ⟨?_, ?_, ?_, ?_, ?_⟩
    all_goals
      (intro hne
       by_cases hp : p = s3
       · subst hp
         simp [upd, bothGrants, allow, allowThis] at hne ⊢
       · exact absurd (by simp [upd, hp]) hne)
  | opIncrementScore s3 t2 =>
    simp only [exec, incrementScore] at hok
    repeat' split at hok
    all_goals cases hok
    all_goals refine ⟨?_, ?_, ?_, ?_, ?_⟩
    all_goals
      (intro hne
       by_cases hp : p = s3
       · subst hp
         simp [upd, bothGrants, allow, allowThis] at hne ⊢
       · exact absurd (by simp [upd, hp]) hne)
  | opStartGame s3 w2 t2 e2 sd2 =>
    simp only [exec, startGame] at hok
    repeat' split at hok
    all_goals cases hok
    all_goals refine ⟨?_, ?_, ?_, ?_, ?_⟩
    all_goals
      (intro hne
       by_cases hp : p = s3
       · subst hp
         simp [upd, bothGrants, allow, allowThis] at hne ⊢
       · exact absurd (by simp [upd, hp]) hne)
  | opMakeGuess s3 hi e2 =>
    simp only [exec, makeGuess, Except.map] at hok
    repeat' split at hok
    all_goals cases hok
    all_goals rename_i r heq
    all_goals (repeat' split at heq)
    all_goals cases heq
    all_goals refine ⟨?_, ?_, ?_, ?_, ?_⟩
    all_goals
      (intro hne
       by_cases hp : p = s3
       · subst hp
         simp [upd, bothGrants, allow, allowThis] at hne ⊢
       · exact absurd (by simp [upd, hp]) hne)
  | opCashOut s3 =>
    simp only [exec, cashOut] at hok
    repeat' split at hok
    all_goals cases hok
    all_goals refine ⟨?_, ?_, ?_, ?_, ?_⟩
    all_goals
      (intro hne
       by_cases hp : p = s3
       · subst hp
         simp [upd, bothGrants, allow, allowThis] at hne ⊢
       · exact absurd (by simp [upd, hp]) hne)
  | opSimpleStartGame s3 w2 t2 e2 sd2 =>
    simp only [exec, simpleStartGame] at hok
    repeat' split at hok
    all_goals cases hok
    all_goals refine ⟨?_, ?_, ?_, ?_, ?_⟩
    all_goals
      (intro hne
       by_cases hp : p = s3
       · subst hp
         simp [upd, bothGrants, allow, allowThis] at hne ⊢
       · exact absurd (by simp [upd, hp]) hne)
  | opSimpleMakeGuess s3 hi e2 =>
    simp only [exec, simpleMakeGuess, Except.map] at hok
    repeat' split at hok
    all_goals cases hok
    all_goals rename_i r heq
    all_goals (repeat' split at heq)
    all_goals cases heq
    all_goals refine ⟨?_, ?_, ?_, ?_, ?_⟩
    all_goals
      (intro hne
       by_cases hp : p = s3
       · subst hp
         simp [upd, bothGrants, allow, allowThis] at hne ⊢
       · exact absurd (by simp [upd, hp]) hne)
  | opSimpleCashOut s3 =>
    simp only [exec, simpleCashOut] at hok
    repeat' split at hok
    all_goals cases hok
    all_goals refine ⟨?_, ?_, ?_, ?_, ?_⟩
    all_goals
      (intro hne
       by_cases hp : p = s3
       · subst hp
         simp [upd, bothGrants, allow, allowThis] at hne ⊢
       · exact absurd (by simp [upd, hp]) hne)
  | opGrantAllPermissions s3 t2 =>
    simp only [exec, grantAllPermissions] at hok
    repeat' split at hok
    all_goals cases hok
    all_goals refine ⟨?_, ?_, ?_, ?_, ?_⟩
    all_goals
      (intro hne
       by_cases hp : p = s3
       · subst hp
         simp [upd, bothGrants, allow, allowThis] at hne ⊢
       · exact absurd (by simp [upd, hp]) hne)
  | opResetUserData s3 t2 =>
    simp only [exec, resetUserData] at hok
    cases hok
    refine ⟨?_, ?_, ?_, ?_, ?_⟩
    all_goals
      (intro hne
       by_cases hp : p = s3
       · subst hp
         simp [upd, bothGrants, allow, allowThis] at hne ⊢
       · exact absurd (by simp [upd, hp]) hne)

/-- Witness for claim C7: a concrete successful operation (a reset by
principal 0 on the fresh state) replaces the balance slot handle, and
the new handle carries both grants. -/
theorem replaced_handle_grants_witness :
    ∃ s2, exec initState (Op.opResetUserData 0 0) = Except.ok s2 ∧
      s2.encryptedBalances 0 ≠ initState.encryptedBalances 0 ∧
      bothGrants (s2.encryptedBalances 0) 0 := by
  refine ⟨_, rfl, by decide, ?_⟩
  exact (replaced_handle_grants initState (Op.opResetUserData 0 0) _ rfl 0).1 (by decide)

end FHEVM
